import Mathlib

/-!
Shallow embedding of the motion-comparison engine of the `cbc-hack`
repository (`src/services/comparison_service.py` and
`src/services/feedback_service.py`) over exact rational arithmetic, together
with theorems settling the frozen claims about it.

Modelling conventions:
* Python floats are modelled as `ℚ`; float literals such as `0.40` or `0.6`
  are the corresponding exact rationals, written `mkRat 2 5`, `mkRat 3 5`
  and so on so that concrete instances evaluate inside the kernel.
* The IEEE value `inf` (used on the borders of the DTW matrix) is modelled as
  `none : Option ℚ`, with arithmetic and comparisons spelled out to match
  IEEE semantics (`inf` absorbs addition, `x < inf` for finite `x`,
  `inf < inf` is false).
* The IEEE value `nan` (arising from `np.mean([])` and from the cosine of a
  zero vector) is also modelled as `none : Option ℚ` in the places where it
  can arise; every comparison against it is false, and Python's
  `max(0, nan)` evaluates to `0` because CPython's `max` only replaces its
  running result on a strict `>` comparison.
* `math.sqrt` / `np.sqrt` (reached through `scipy`'s `euclidean` and
  `cosine` and through the velocity computation) is an abstract parameter
  `sqrtF : ℚ → ℚ`; theorems that depend on actual square-root behaviour
  assume only properties that the real square root has (`sqrtF 0 = 0`,
  nonnegativity, positivity on positives, `sqrtF (x * x) = x` for `0 ≤ x`).
  `ratSqrt` below is a concrete instance satisfying all of them, used to
  instantiate witnesses.
-/

namespace Cbc

/-- Exact rational model of the square root used for witnesses: on perfect
rational squares it is the exact nonnegative root; on other positive inputs
it returns some positive surrogate value. It satisfies all the square-root
properties assumed by the theorems in this file. -/
def ratSqrt (q : ℚ) : ℚ :=
  if Rat.sqrt q * Rat.sqrt q = q then Rat.sqrt q
  else if 0 < q then q + 1
  else 0

/-- One body landmark as read by the comparison service: only the `x` and
`y` coordinates of the Python landmark dict are ever accessed there. -/
structure Landmark where
  x : ℚ
  y : ℚ
deriving Repr, DecidableEq

/-- One frame's pose: the Python dict mapping landmark name to landmark,
modelled as an association list (dict keys are unique). -/
abbrev Pose : Type := List (String × Landmark)

/-- Sorted insertion used to model Python's `sorted(pose.keys())`. -/
def insertSorted (s : String) : List String → List String
  | [] => [s]
  | t :: r => if t < s then t :: insertSorted s r else s :: t :: r

/-- Ascending sort of the landmark names, modelling `sorted(pose.keys())`. -/
def sortStrings : List String → List String
  | [] => []
  | s :: r => insertSorted s (sortStrings r)

/-- Lookup of a landmark by name; in the source the key always comes from
the dict itself, so the default is never reached on real inputs. -/
def lookupLm (pose : Pose) (k : String) : Landmark :=
  (List.lookup k pose).getD { x := 0, y := 0 }

/-- Raw feature list of one pose: `x` then `y` of every landmark, landmark
names in sorted order, skipping the `angles` entry
(`_poses_to_features`, loop body). -/
def rawFeature (pose : Pose) : List ℚ :=
  ((sortStrings (pose.map Prod.fst)).filter (fun k => k ≠ "angles")).foldr
    (fun k acc => (lookupLm pose k).x :: (lookupLm pose k).y :: acc) []

/-- Padding and truncation to the fixed feature length 66
(`_poses_to_features`: `while len < 66: append 0` then `[:66]`). -/
def padTo66 (v : List ℚ) : List ℚ :=
  (v ++ List.replicate (66 - v.length) 0).take 66

/-- Model of `ComparisonService._poses_to_features`: a missing pose maps to
the zero vector, a present pose to its padded raw feature list. The unused
`focus_areas` parameter of the Python function is omitted (its body never
reads it). -/
def poses_to_features (poses : List (Option Pose)) : List (List ℚ) :=
  poses.map (fun p =>
    match p with
    | none => List.replicate 66 0
    | some pose => padTo66 (rawFeature pose))

/-- Dot product of two feature vectors (`np.dot` on equal-length vectors;
`zip` truncation is harmless because all encoded vectors have length 66). -/
def dotQ (u v : List ℚ) : ℚ :=
  ((u.zip v).map (fun p => p.1 * p.2)).sum

/-- Sum of squared coordinate differences of two feature vectors. -/
def sumSqDiff (u v : List ℚ) : ℚ :=
  ((u.zip v).map (fun p => (p.1 - p.2) ^ 2)).sum

/-- Model of `scipy.spatial.distance.euclidean`: square root of the sum of
squared differences. -/
def euclideanQ (sqrtF : ℚ → ℚ) (u v : List ℚ) : ℚ :=
  sqrtF (sumSqDiff u v)

/-- Model of `scipy.spatial.distance.cosine`, which computes
`1 - uv / sqrt(uu * vv)`: `none` models the `nan` produced when either
vector is zero (division by zero inside scipy). -/
def cosineDist (sqrtF : ℚ → ℚ) (u v : List ℚ) : Option ℚ :=
  if dotQ u u * dotQ v v = 0 then none
  else some (1 - dotQ u v / sqrtF (dotQ u u * dotQ v v))

/-- Extended-value minimum: `none` is `+inf` (`min` over IEEE floats as used
by the DTW recurrence). -/
def eMin (a b : Option ℚ) : Option ℚ :=
  match a, b with
  | none, b => b
  | some x, none => some x
  | some x, some y => some (min x y)

/-- Extended-value addition of a finite cost (`cost + min(...)` where the
minimum may be `inf`). -/
def eAdd (c : ℚ) (a : Option ℚ) : Option ℚ :=
  a.map (fun x => c + x)

/-- Extended-value `≤` with `none = +inf`: mirrors IEEE float comparison
(`x ≤ inf` always, `inf ≤ x` only for `x = inf`). -/
def eLE (a b : Option ℚ) : Bool :=
  match a, b with
  | _, none => true
  | none, some _ => false
  | some x, some y => x ≤ y

/-- One row update of the cumulative DTW cost matrix: given row `i` as a
function of the column, produce row `i+1` (`dtw_matrix[i, j] = cost +
min(up, left, diag)` with the column-0 border at `inf`). -/
def dtwNext (d : Nat → ℚ) (prev : Nat → Option ℚ) : Nat → Option ℚ
  | 0 => none
  | j + 1 => eAdd (d j) (eMin (prev (j + 1)) (eMin (dtwNext d prev j) (prev j)))

/-- Row `i` of the cumulative DTW cost matrix of `_dtw_align`:
row 0 is `[0, inf, inf, ...]`, and each later row is obtained from the
previous one by the standard DTW recurrence. -/
def dtwRow (d : Nat → Nat → ℚ) : Nat → (Nat → Option ℚ)
  | 0 => fun j => if j = 0 then some 0 else none
  | i + 1 => dtwNext (d i) (dtwRow d i)

/-- Entry `(i, j)` of the cumulative DTW cost matrix (`dtw_matrix[i, j]`). -/
def dtwCost (d : Nat → Nat → ℚ) (i j : Nat) : Option ℚ :=
  dtwRow d i j

/-- Fuelled model of the backtracking loop of `_dtw_align`: starting from
cell `(i, j)` it appends `(i-1, j-1)` and moves to whichever of up, left,
diagonal has the minimum cumulative cost, ties broken in that order exactly
as Python's `min` over the candidate list does. The fuel argument only
drives structural termination; `i + j` units always suffice. -/
def backtrackAux (C : Nat → Nat → Option ℚ) : Nat → Nat → Nat → List (Nat × Nat)
  | 0, _, _ => []
  | _ + 1, 0, _ => []
  | _ + 1, _ + 1, 0 => []
  | f + 1, i + 1, j + 1 =>
    (i, j) ::
      (if eLE (C i (j + 1)) (C (i + 1) j) && eLE (C i (j + 1)) (C i j) then
        backtrackAux C f i (j + 1)
      else if eLE (C (i + 1) j) (C i j) then
        backtrackAux C f (i + 1) j
      else
        backtrackAux C f i j)

/-- Backtracking from cell `(i, j)` (the Python `while i > 0 and j > 0`
loop), in descending order as appended by the source. -/
def backtrack (C : Nat → Nat → Option ℚ) (i j : Nat) : List (Nat × Nat) :=
  backtrackAux C (i + j) i j

/-- Alignment record returned by `_dtw_align` (`distance` may be `inf`,
modelled by `none`; the other fields are always finite floats). -/
structure Alignment where
  distance : Option ℚ
  normalized_distance : ℚ
  path : List (Nat × Nat)
  alignment_quality : ℚ
deriving Repr, DecidableEq

/-- Model of the `except` branch of `_dtw_align`: linear fallback pairing
index `i` of the example sequence with `int(i * m / n)` (truncating float
division, which on these nonnegative integers is floor division). -/
def dtw_fallback (n m : Nat) : Alignment :=
  { distance := some 0
    normalized_distance := mkRat 1 2
    path := (List.range n).map (fun i => (i, i * m / n))
    alignment_quality := mkRat 1 2 }

/-- Pairwise distance function of `_dtw_align`
(`dist_matrix[i, j] = euclidean(example_features[i], assignment_features[j])`). -/
def dtwD (sqrtF : ℚ → ℚ) (example_features assignment_features : List (List ℚ))
    (i j : Nat) : ℚ :=
  euclideanQ sqrtF (example_features.getD i []) (assignment_features.getD j [])

/-- Model of `ComparisonService._dtw_align`. The `try` body raises only when
both sequences are empty (`0.0 / 0` in the distance normalisation raises
`ZeroDivisionError`), which is exactly when the guard below selects the
fallback. When the total distance is `inf` (one empty sequence), the float
arithmetic of the source yields normalized distance `min(inf, 1.0) = 1.0`
and quality `max(0, -inf) = 0`, as in the `none` branch. -/
def dtw_align (sqrtF : ℚ → ℚ) (example_features assignment_features : List (List ℚ)) :
    Alignment :=
  let n := example_features.length
  let m := assignment_features.length
  if n = 0 ∧ m = 0 then dtw_fallback n m
  else
    let d := dtwD sqrtF example_features assignment_features
    let path := (backtrack (dtwCost d) n m).reverse
    let maxLen : ℚ := (max n m : Nat)
    match dtwCost d n m with
    | none =>
      { distance := none
        normalized_distance := 1
        path := path
        alignment_quality := 0 }
    | some q =>
      { distance := some q
        normalized_distance := min (q / (maxLen * 10)) 1
        path := path
        alignment_quality := max 0 (1 - q / (maxLen * 10)) }

/-- Mean of a float list as computed by `np.mean`: `none` models the `nan`
returned (with a warning, not an exception) on an empty list. -/
def meanQ (l : List ℚ) : Option ℚ :=
  if l = [] then none else some (l.sum / l.length)

/-- Float `>` between possibly-`nan` values: any comparison against `nan`
is false. -/
def nanGT (a b : Option ℚ) : Bool :=
  match a, b with
  | some x, some y => y < x
  | _, _ => false

/-- Float `<` between possibly-`nan` values: any comparison against `nan`
is false. -/
def nanLT (a b : Option ℚ) : Bool :=
  match a, b with
  | some x, some y => x < y
  | _, _ => false

/-- Python's `int(...)` on a float: truncation toward zero. -/
def pyInt (q : ℚ) : ℤ :=
  Int.tdiv q.num (q.den : ℤ)

/-- Python's `round(x)` on a float: round half to even. The fractional part
`q - ⌊q⌋` is compared against one half on integers: with `r2` twice the
numerator of the fractional part over the denominator of `q`, the fraction
is below one half iff `r2 < q.den`, above iff `q.den < r2`, and a tie
rounds to the even neighbour. -/
def roundHalfEven (q : ℚ) : ℤ :=
  let f := Rat.floor q
  let r2 := 2 * (q.num - f * (q.den : ℤ))
  if r2 < (q.den : ℤ) then f
  else if (q.den : ℤ) < r2 then f + 1
  else if f % 2 = 0 then f else f + 1

/-- Python's `round(x, 1)`: one decimal, half to even. -/
def roundTo1 (q : ℚ) : ℚ :=
  (roundHalfEven (10 * q) : ℚ) / 10

/-- Similarity metrics returned by `_calculate_similarities`
(`pose_similarity` is `none` exactly when `np.mean` of an empty score list
produced `nan`). -/
structure Similarities where
  pose_similarity : Option ℚ
  timing_similarity : ℚ
  angle_similarity : ℚ
  frame_scores : List ℚ
deriving Repr, DecidableEq

/-- Per-pair frame score: `max(0, 1 - cosine(u, v))`; when the cosine is
`nan` (zero vector), CPython's `max(0, nan)` keeps `0`. -/
def frame_score (sqrtF : ℚ → ℚ) (u v : List ℚ) : ℚ :=
  match cosineDist sqrtF u v with
  | none => 0
  | some cd => max 0 (1 - cd)

/-- Model of `ComparisonService._calculate_angle_similarity`: mean Euclidean
feature distance over the in-bounds path pairs, mapped through
`max(0, 1 - avg / 2)`; `0.0` when no pair is in bounds. -/
def calculate_angle_similarity (sqrtF : ℚ → ℚ)
    (example_features assignment_features : List (List ℚ))
    (path : List (Nat × Nat)) : ℚ :=
  let angle_diffs := path.filterMap (fun p =>
    if p.1 < example_features.length ∧ p.2 < assignment_features.length then
      some (euclideanQ sqrtF (example_features.getD p.1 [])
        (assignment_features.getD p.2 []))
    else none)
  if angle_diffs = [] then 0
  else max 0 (1 - angle_diffs.sum / angle_diffs.length / 2)

/-- Model of `ComparisonService._calculate_similarities`. The two timestamp
parameters of the source are accepted and ignored exactly as there. -/
def calculate_similarities (sqrtF : ℚ → ℚ)
    (example_features assignment_features : List (List ℚ))
    (alignment : Alignment)
    (example_timestamps assignment_timestamps : List ℚ) : Similarities :=
  let frame_scores := alignment.path.map (fun p =>
    if p.1 < example_features.length ∧ p.2 < assignment_features.length then
      frame_score sqrtF (example_features.getD p.1 [])
        (assignment_features.getD p.2 [])
    else 0)
  { pose_similarity := meanQ frame_scores
    timing_similarity := alignment.alignment_quality
    angle_similarity := calculate_angle_similarity sqrtF example_features
      assignment_features alignment.path
    frame_scores := frame_scores }

/-- Movement metrics returned by `_analyze_movement_quality`. -/
structure Movement where
  example_velocities : List ℚ
  assignment_velocities : List ℚ
  velocity_similarity : ℚ
  example_smoothness : ℚ
  assignment_smoothness : ℚ
  smoothness_score : ℚ
  is_too_stiff : Bool
  is_too_fast : Bool
  is_too_slow : Bool
deriving Repr, DecidableEq

/-- Landmark names whose displacement defines the per-frame velocity. -/
def velKeys : List String :=
  ["left_wrist", "right_wrist", "left_ankle", "right_ankle"]

/-- Velocity between two consecutive frames: average 2D displacement of the
key landmarks present in both frames, `0` if either frame is absent or no
key landmark is present in both. -/
def frameVelocity (sqrtF : ℚ → ℚ) (p q : Option Pose) : ℚ :=
  match p, q with
  | some a, some b =>
    let ds := velKeys.filterMap (fun k =>
      match List.lookup k a, List.lookup k b with
      | some la, some lb =>
        some (sqrtF ((lb.x - la.x) ^ 2 + (lb.y - la.y) ^ 2))
      | _, _ => none)
    if ds.length = 0 then 0 else ds.sum / ds.length
  | _, _ => 0

/-- Model of `ComparisonService._calculate_velocities`: one velocity per
consecutive frame pair. -/
def calculate_velocities (sqrtF : ℚ → ℚ) (poses : List (Option Pose)) : List ℚ :=
  (poses.zip poses.tail).map (fun pq => frameVelocity sqrtF pq.1 pq.2)

/-- Successive differences, modelling `np.diff`. -/
def diffQ (l : List ℚ) : List ℚ :=
  (l.zip l.tail).map (fun p => p.2 - p.1)

/-- Model of `ComparisonService._calculate_smoothness`: `0.5` with fewer
than two velocity samples or no jerk sample, else `max(0, 1 - mean |jerk| * 10)`. -/
def calculate_smoothness (sqrtF : ℚ → ℚ) (poses : List (Option Pose)) : ℚ :=
  let velocities := calculate_velocities sqrtF poses
  if velocities.length < 2 then mkRat 1 2
  else
    let jerks := diffQ (diffQ velocities)
    if jerks.length = 0 then mkRat 1 2
    else max 0 (1 - (jerks.map (fun x => |x|)).sum / jerks.length * 10)

/-- Model of `ComparisonService._compare_velocities`. -/
def compare_velocities (vel1 vel2 : List ℚ) : ℚ :=
  if vel1 = [] ∨ vel2 = [] then 0
  else
    let avg_vel1 := vel1.sum / vel1.length
    let avg_vel2 := vel2.sum / vel2.length
    if avg_vel1 = 0 then 0
    else min avg_vel2 avg_vel1 / max avg_vel2 avg_vel1

/-- Model of `ComparisonService._analyze_movement_quality`. The tempo flags
compare possibly-`nan` means (`np.mean` of an empty velocity list), and any
comparison involving `nan` is false. The `alignment` parameter is accepted
and ignored exactly as in the source. -/
def analyze_movement_quality (sqrtF : ℚ → ℚ)
    (example_poses assignment_poses : List (Option Pose))
    (alignment : Alignment) : Movement :=
  let example_velocities := calculate_velocities sqrtF example_poses
  let assignment_velocities := calculate_velocities sqrtF assignment_poses
  let example_smoothness := calculate_smoothness sqrtF example_poses
  let assignment_smoothness := calculate_smoothness sqrtF assignment_poses
  { example_velocities := example_velocities
    assignment_velocities := assignment_velocities
    velocity_similarity := compare_velocities example_velocities assignment_velocities
    example_smoothness := example_smoothness
    assignment_smoothness := assignment_smoothness
    smoothness_score := 1 - |example_smoothness - assignment_smoothness|
    is_too_stiff := assignment_smoothness < mkRat 1 2
    is_too_fast := nanGT (meanQ assignment_velocities)
      ((meanQ example_velocities).map (fun x => x * mkRat 13 10))
    is_too_slow := nanLT (meanQ assignment_velocities)
      ((meanQ example_velocities).map (fun x => x * mkRat 7 10)) }

/-- One feedback item (`timestamp`, `issue`, `severity`, `suggestion`). -/
structure FeedbackItem where
  timestamp : String
  issue : String
  severity : String
  suggestion : String
deriving Repr, DecidableEq

/-- Zero-padded rendering of a nonnegative integer below 10, as produced by
the `02d` format of `_format_time` on the values arising there. -/
def pad2 (n : ℤ) : String :=
  if 0 ≤ n ∧ n < 10 then "0" ++ toString n else toString n

/-- Model of `ComparisonService._format_time`: `MM:SS` from seconds. -/
def format_time (seconds : ℚ) : String :=
  let minutes := pyInt (Rat.floor (seconds / 60) : ℤ)
  let secs := pyInt (seconds - 60 * (Rat.floor (seconds / 60) : ℤ))
  pad2 minutes ++ ":" ++ pad2 secs

/-- Open problem segment of the feedback scan (`end` is a Lean keyword, so
the Python `'end'` key is called `stop`). -/
structure Segment where
  start : ℚ
  stop : ℚ
  scores : List ℚ
deriving Repr, DecidableEq

/-- One step of the problem-segment scan of `_generate_feedback_points`:
a score below `0.6` opens or extends the current segment (when index `i` is
within the path; otherwise nothing happens), and a score of `0.6` or more
closes it. -/
def scanStep (path : List (Nat × Nat)) (example_timestamps : List ℚ)
    (st : List Segment × Option Segment) (iscore : Nat × ℚ) :
    List Segment × Option Segment :=
  if iscore.2 < mkRat 3 5 then
    if iscore.1 < path.length then
      let p := path.getD iscore.1 (0, 0)
      let t := if p.1 < example_timestamps.length then
        example_timestamps.getD p.1 0 else 0
      match st.2 with
      | none => (st.1, some { start := t, stop := t, scores := [iscore.2] })
      | some seg =>
        (st.1, some { seg with stop := t, scores := seg.scores ++ [iscore.2] })
    else st
  else
    match st.2 with
    | none => st
    | some seg => (st.1 ++ [seg], none)

/-- Feedback item for one problem segment: severity `high` below mean score
`0.4`, else `medium`; the suggestion embeds the truncated percentage.
Segments produced by the scan always carry at least one score, so the mean
is the plain sum-over-length. -/
def segmentItem (seg : Segment) : FeedbackItem :=
  let avg_score := seg.scores.sum / seg.scores.length
  { timestamp := format_time seg.start ++ " - " ++ format_time seg.stop
    issue := "Pose mismatch"
    severity := if avg_score < mkRat 2 5 then "high" else "medium"
    suggestion := "Review your positioning during this segment. Pose accuracy: "
      ++ toString (pyInt (avg_score * 100)) ++ "%" }

/-- Tempo item emitted when the candidate is too fast. -/
def tooFastItem (ma : Movement) : FeedbackItem :=
  { timestamp := "Overall"
    issue := "Movement speed too fast"
    severity := "medium"
    suggestion := "Slow down your movements by ~"
      ++ toString (pyInt ((1 - ma.velocity_similarity) * 100))
      ++ "% to match the example tempo" }

/-- Tempo item emitted when the candidate is too slow. -/
def tooSlowItem (ma : Movement) : FeedbackItem :=
  { timestamp := "Overall"
    issue := "Movement speed too slow"
    severity := "medium"
    suggestion := "Speed up your movements by ~"
      ++ toString (pyInt ((1 - ma.velocity_similarity) * 100))
      ++ "% to match the example tempo" }

/-- Stiffness item. -/
def stiffItem : FeedbackItem :=
  { timestamp := "Overall"
    issue := "Stiff or jerky movements"
    severity := "medium"
    suggestion := "Try to move more fluidly and smoothly. Focus on smooth transitions between poses." }

/-- Positive fallback item emitted when nothing else fired. -/
def positiveItem : FeedbackItem :=
  { timestamp := "Overall"
    issue := "None"
    severity := "none"
    suggestion := "Great job! Your choreography closely matches the example." }

/-- Model of `ComparisonService._generate_feedback_points`: problem segments
in order, then the tempo item (`elif` makes fast and slow exclusive), then
the stiffness item, then the positive item exactly when nothing fired. -/
def generate_feedback_points (similarities : Similarities) (ma : Movement)
    (example_timestamps assignment_timestamps : List ℚ)
    (alignment : Alignment) : List FeedbackItem :=
  let scanned := similarities.frame_scores.enum.foldl
    (scanStep alignment.path example_timestamps) ([], none)
  let problem_segments := scanned.1 ++
    (match scanned.2 with
     | none => []
     | some seg => [seg])
  let segItems := problem_segments.map segmentItem
  let tempoItems :=
    if ma.is_too_fast then [tooFastItem ma]
    else if ma.is_too_slow then [tooSlowItem ma]
    else []
  let stiffItems := if ma.is_too_stiff then [stiffItem] else []
  let feedback := segItems ++ tempoItems ++ stiffItems
  if feedback = [] then [positiveItem] else feedback

/-- Model of `ComparisonService._calculate_overall_score`: the fixed
weighted combination of the four sub-metrics; `none` propagates a `nan`
`pose_similarity`. -/
def calculate_overall_score (similarities : Similarities) (ma : Movement) :
    Option ℚ :=
  similarities.pose_similarity.map (fun ps =>
    ps * mkRat 2 5 + similarities.timing_similarity * mkRat 1 4 +
      similarities.angle_similarity * mkRat 1 5 +
      ma.smoothness_score * mkRat 3 20)

/-- Similarity breakdown of the report (each value rounded to one decimal
on the 0 to 100 scale). -/
structure Breakdown where
  pose_accuracy : Option ℚ
  timing_accuracy : ℚ
  movement_smoothness : ℚ
  angle_accuracy : ℚ
deriving Repr, DecidableEq

/-- Successful comparison report as assembled by `compare_videos`. -/
structure Report where
  overall_similarity : Option ℚ
  similarity_breakdown : Breakdown
  feedback_points : List FeedbackItem
  alignment : Alignment
  frame_similarities : List ℚ
  movement_metrics : Movement
deriving Repr, DecidableEq

/-- Result of `compare_videos`: either the graceful error dict or a full
report. -/
inductive CompareResult where
  | err (error : String) (overall_similarity : ℚ)
  | ok (report : Report)
deriving Repr, DecidableEq

/-- Error message of the graceful empty-input outcome. -/
def poseErrorMsg : String := "Could not detect poses in one or both videos"

/-- Input pose data as read by `compare_videos`: only the `poses` and
`timestamps` keys of the extraction dict are accessed. -/
structure PoseData where
  poses : List (Option Pose)
  timestamps : List ℚ
deriving Repr, DecidableEq

/-- Model of `ComparisonService.compare_videos`. The `focus_areas` argument
is threaded through to `_poses_to_features`, which never reads it, so it is
accepted and ignored here as well. -/
def compare_videos (sqrtF : ℚ → ℚ)
    (example_pose_data assignment_pose_data : PoseData)
    (focus_areas : List String) : CompareResult :=
  let example_poses_clean := example_pose_data.poses.filterMap id
  let assignment_poses_clean := assignment_pose_data.poses.filterMap id
  if example_poses_clean = [] ∨ assignment_poses_clean = [] then
    .err poseErrorMsg 0
  else
    let example_features := poses_to_features (example_poses_clean.map some)
    let assignment_features := poses_to_features (assignment_poses_clean.map some)
    let alignment := dtw_align sqrtF example_features assignment_features
    let similarities := calculate_similarities sqrtF example_features
      assignment_features alignment example_pose_data.timestamps
      assignment_pose_data.timestamps
    let movement_analysis := analyze_movement_quality sqrtF
      (example_poses_clean.map some) (assignment_poses_clean.map some) alignment
    let feedback_points := generate_feedback_points similarities
      movement_analysis example_pose_data.timestamps
      assignment_pose_data.timestamps alignment
    let overall_similarity := calculate_overall_score similarities movement_analysis
    .ok
      { overall_similarity := overall_similarity.map (fun s => roundTo1 (s * 100))
        similarity_breakdown :=
          { pose_accuracy := similarities.pose_similarity.map
              (fun x => roundTo1 (x * 100))
            timing_accuracy := roundTo1 (similarities.timing_similarity * 100)
            movement_smoothness := roundTo1 (movement_analysis.smoothness_score * 100)
            angle_accuracy := roundTo1 (similarities.angle_similarity * 100) }
        feedback_points := feedback_points
        alignment := alignment
        frame_similarities := similarities.frame_scores
        movement_metrics := movement_analysis }

/-- One line of the fallback feedback text for a non-positive item. -/
def itemLine (p : FeedbackItem) : String :=
  "- [" ++ p.timestamp ++ "] " ++ p.issue ++ ": " ++ p.suggestion ++ "\n"

/-- Model of `FeedbackService._generate_fallback_feedback`. The Python
function receives the whole comparison-result dict but reads only its
`overall_similarity` and `feedback_points` keys, which are therefore the
only inputs here; the rendering of the similarity number is abstracted by
`toString`. -/
def generate_fallback_feedback (overall_similarity : ℚ)
    (feedback_points : List FeedbackItem) : String :=
  let opening := "Overall Performance: " ++ toString overall_similarity ++ "%\n\n"
  let banded := opening ++
    (if 80 ≤ overall_similarity then
      "Excellent work! Your choreography closely matches the example.\n\n"
    else if 65 ≤ overall_similarity then
      "Good effort! You\x27re on the right track with some areas to improve.\n\n"
    else
      "Keep practicing! There are several areas that need attention.\n\n")
  let headed := banded ++ "Areas for Improvement:\n"
  feedback_points.foldl
    (fun acc p => if p.issue ≠ "None" then acc ++ itemLine p else acc) headed

/-- Statement of the fallback feedback following the specification text:
an opening line from the overall similarity, one of three band sentences
selected at thresholds 80 and 65, then one line for every feedback item
whose issue is not `None`. -/
def fallback_feedback_spec (overall_similarity : ℚ)
    (feedback_points : List FeedbackItem) : String :=
  "Overall Performance: " ++ toString overall_similarity ++ "%\n\n" ++
    (if 80 ≤ overall_similarity then
      "Excellent work! Your choreography closely matches the example.\n\n"
    else if 65 ≤ overall_similarity then
      "Good effort! You\x27re on the right track with some areas to improve.\n\n"
    else
      "Keep practicing! There are several areas that need attention.\n\n") ++
    "Areas for Improvement:\n" ++
    ((feedback_points.filter (fun p => p.issue ≠ "None")).map itemLine).foldr
      (fun s acc => s ++ acc) ""

/-- One step of a monotone alignment path: both coordinates non-decreasing
and each increasing by at most one. -/
def ascStep (p q : Nat × Nat) : Prop :=
  p.1 ≤ q.1 ∧ q.1 ≤ p.1 + 1 ∧ p.2 ≤ q.2 ∧ q.2 ≤ p.2 + 1

instance (p q : Nat × Nat) : Decidable (ascStep p q) := by
  unfold ascStep
  infer_instance

/-- Concrete similarity record used to instantiate witnesses. -/
def witSims : Similarities :=
  { pose_similarity := some 1
    timing_similarity := 1
    angle_similarity := 1
    frame_scores := [1] }

/-- Concrete movement record with all flags off, used to instantiate
witnesses. -/
def witMove : Movement :=
  { example_velocities := []
    assignment_velocities := []
    velocity_similarity := 0
    example_smoothness := mkRat 1 2
    assignment_smoothness := mkRat 1 2
    smoothness_score := 1
    is_too_stiff := false
    is_too_fast := false
    is_too_slow := false }

/-- Concrete alignment record used to instantiate witnesses. -/
def witAlign : Alignment :=
  { distance := some 0
    normalized_distance := 0
    path := [(0, 0)]
    alignment_quality := 1 }

/-- Concrete one-frame pose data used to instantiate witnesses. -/
def witData1 : PoseData :=
  { poses := [some [("a", { x := 1, y := 2 })]], timestamps := [0] }

/-- Second concrete one-frame pose data used to instantiate witnesses. -/
def witData2 : PoseData :=
  { poses := [some [("a", { x := 1, y := 1 })]], timestamps := [0] }

/-! Properties of the witness square root. -/

theorem ratSqrt_zero : ratSqrt 0 = 0 := by
  simp [ratSqrt, Rat.sqrt]

theorem ratSqrt_nonneg (q : ℚ) : 0 ≤ ratSqrt q := by
  unfold ratSqrt
  split
  · exact Rat.sqrt_nonneg q
  · split
    · linarith
    · exact le_refl 0

theorem ratSqrt_pos (q : ℚ) (hq : 0 < q) : 0 < ratSqrt q := by
  unfold ratSqrt
  split
  · rename_i h
    rcases lt_or_eq_of_le (Rat.sqrt_nonneg q) with hlt | heq
    · exact hlt
    · exfalso
      rw [← heq] at h
      simp at h
      linarith
  · linarith

theorem ratSqrt_mul_self (x : ℚ) (hx : 0 ≤ x) : ratSqrt (x * x) = x := by
  have hs : Rat.sqrt (x * x) = x := by
    rw [Rat.sqrt_eq, abs_of_nonneg hx]
  unfold ratSqrt
  rw [hs]
  split
  · rfl
  · rename_i h
    exact absurd rfl h

/-! Basic facts about the extended-value operations. -/

theorem eLE_refl (a : Option ℚ) : eLE a a = true := by
  cases a <;> simp [eLE]

theorem eLE_trans {a b c : Option ℚ} (h1 : eLE a b = true) (h2 : eLE b c = true) :
    eLE a c = true := by
  cases a <;> cases b <;> cases c <;> simp_all [eLE] <;> linarith

theorem eLE_total (a b : Option ℚ) : eLE a b = true ∨ eLE b a = true := by
  cases a <;> cases b <;> simp [eLE] <;> exact le_total _ _

theorem eMin_mem (a b : Option ℚ) (t : ℚ) (h : eMin a b = some t) :
    a = some t ∨ b = some t := by
  cases a with
  | none => right; simpa [eMin] using h
  | some x =>
    cases b with
    | none => left; simpa [eMin] using h
    | some y =>
      simp [eMin] at h
      rcases min_choice x y with hc | hc
      · left; rw [← h, hc]
      · right; rw [← h, hc]

theorem eMin_eq_none (a b : Option ℚ) : eMin a b = none ↔ a = none ∧ b = none := by
  cases a <;> cases b <;> simp [eMin]

theorem eAdd_eq_none (c : ℚ) (a : Option ℚ) : eAdd c a = none ↔ a = none := by
  cases a <;> simp [eAdd]

theorem eMin_some_right (a : Option ℚ) (y : ℚ) :
    ∃ t, eMin a (some y) = some t ∧ t ≤ y := by
  cases a with
  | none => exact ⟨y, rfl, le_refl y⟩
  | some x => exact ⟨min x y, rfl, min_le_right x y⟩

theorem eMin_le_left (a b : Option ℚ) : eLE (eMin a b) a = true := by
  cases a <;> cases b <;> simp [eMin, eLE, min_le_left]

theorem eMin_le_right (a b : Option ℚ) : eLE (eMin a b) b = true := by
  cases a <;> cases b <;> simp [eMin, eLE, min_le_right]

theorem eLE_some_none_false (x : ℚ) (h : eLE none (some x) = true) : False := by
  simp [eLE] at h

/-! Structure of the cumulative DTW cost matrix. -/

theorem dtwCost_zero_zero (d : Nat → Nat → ℚ) : dtwCost d 0 0 = some 0 := rfl

theorem dtwCost_zero_succ (d : Nat → Nat → ℚ) (j : Nat) :
    dtwCost d 0 (j + 1) = none := by
  simp [dtwCost, dtwRow]

theorem dtwCost_succ_zero (d : Nat → Nat → ℚ) (i : Nat) :
    dtwCost d (i + 1) 0 = none := rfl

theorem dtwCost_succ_succ (d : Nat → Nat → ℚ) (i j : Nat) :
    dtwCost d (i + 1) (j + 1) =
      eAdd (d i j)
        (eMin (dtwCost d i (j + 1))
          (eMin (dtwCost d (i + 1) j) (dtwCost d i j))) := rfl

theorem dtwCost_nonneg (d : Nat → Nat → ℚ) (hd : ∀ i j, 0 ≤ d i j) :
    ∀ i j q, dtwCost d i j = some q → 0 ≤ q := by
  intro i
  induction i with
  | zero =>
    intro j q h
    cases j with
    | zero =>
      rw [dtwCost_zero_zero] at h
      injection h with h
      linarith [h]
    | succ j => rw [dtwCost_zero_succ] at h; exact absurd h (by simp)
  | succ i ih =>
    intro j
    induction j with
    | zero =>
      intro q h
      rw [dtwCost_succ_zero] at h; exact absurd h (by simp)
    | succ j ihj =>
      intro q h
      rw [dtwCost_succ_succ] at h
      unfold eAdd at h
      rcases Option.map_eq_some'.mp h with ⟨t, ht, hq⟩
      have ht0 : 0 ≤ t := by
        rcases eMin_mem _ _ _ ht with h1 | h2
        · exact ih _ _ h1
        · rcases eMin_mem _ _ _ h2 with h3 | h4
          · exact ihj _ h3
          · exact ih _ _ h4
      have := hd i j
      linarith [hq ▸ add_nonneg this ht0]

theorem dtwCost_fin (d : Nat → Nat → ℚ) :
    ∀ i j, dtwCost d (i + 1) (j + 1) ≠ none := by
  intro i
  induction i with
  | zero =>
    intro j
    induction j with
    | zero =>
      intro h
      rw [dtwCost_succ_succ, eAdd_eq_none, eMin_eq_none, eMin_eq_none,
        dtwCost_zero_zero] at h
      simp at h
    | succ j ihj =>
      intro h
      rw [dtwCost_succ_succ, eAdd_eq_none, eMin_eq_none, eMin_eq_none] at h
      exact ihj h.2.1
  | succ i ih =>
    intro j h
    rw [dtwCost_succ_succ, eAdd_eq_none, eMin_eq_none] at h
    exact ih j h.1

theorem dtwCost_diag_zero (d : Nat → Nat → ℚ) (hd : ∀ i j, 0 ≤ d i j)
    (hd0 : ∀ k, d k k = 0) : ∀ k, dtwCost d k k = some 0 := by
  intro k
  induction k with
  | zero => exact dtwCost_zero_zero d
  | succ k ih =>
    rw [dtwCost_succ_succ, hd0, ih]
    rcases eMin_some_right (dtwCost d (k + 1) k) 0 with ⟨t1, ht1, ht1le⟩
    rw [ht1]
    rcases eMin_some_right (dtwCost d k (k + 1)) t1 with ⟨t, ht, htle⟩
    rw [ht]
    have htn : 0 ≤ t := by
      rcases eMin_mem _ _ _ ht with h1 | h2
      · exact dtwCost_nonneg d hd _ _ _ h1
      · have h2' : t1 = t := by injection h2
        subst h2'
        rcases eMin_mem _ _ _ ht1 with h3 | h4
        · exact dtwCost_nonneg d hd _ _ _ h3
        · have h4' : (0 : ℚ) = t1 := by injection h4
          linarith
    have ht0 : t = 0 := le_antisymm (le_trans htle ht1le) htn
    subst ht0
    simp [eAdd]

/-! Structure of the backtracking path. -/

theorem btAux_left_nil (C : Nat → Nat → Option ℚ) (f j : Nat) :
    backtrackAux C f 0 j = [] := by
  cases f <;> rfl

theorem btAux_right_nil (C : Nat → Nat → Option ℚ) (f i : Nat) :
    backtrackAux C f i 0 = [] := by
  cases f <;> cases i <;> rfl

theorem btAux_cons (C : Nat → Nat → Option ℚ) (f i j : Nat) :
    backtrackAux C (f + 1) (i + 1) (j + 1) =
      (i, j) ::
        (if eLE (C i (j + 1)) (C (i + 1) j) && eLE (C i (j + 1)) (C i j) then
          backtrackAux C f i (j + 1)
        else if eLE (C (i + 1) j) (C i j) then
          backtrackAux C f (i + 1) j
        else
          backtrackAux C f i j) := rfl

theorem btAux_head (C : Nat → Nat → Option ℚ) (f a b : Nat) :
    backtrackAux C f (a + 1) (b + 1) = [] ∨
      (backtrackAux C f (a + 1) (b + 1)).head? = some (a, b) := by
  cases f with
  | zero => exact Or.inl rfl
  | succ f => exact Or.inr rfl

theorem btAux_last (C : Nat → Nat → Option ℚ)
    (hTop : ∀ j, C 0 (j + 1) = none)
    (hLeft : ∀ i, C (i + 1) 0 = none)
    (hOrigin : C 0 0 = some 0)
    (hFin : ∀ i j, C (i + 1) (j + 1) ≠ none) :
    ∀ f i j, i + j + 1 ≤ f →
      (backtrackAux C f (i + 1) (j + 1)).getLast? = some (0, 0) := by
  intro f
  induction f with
  | zero => intro i j h; omega
  | succ f ih =>
    intro i j hf
    rw [btAux_cons]
    match i, j with
    | 0, 0 =>
      rw [hTop 0, hLeft 0, hOrigin]
      simp [eLE, btAux_left_nil]
    | 0, j + 1 =>
      obtain ⟨v, hv⟩ := Option.ne_none_iff_exists'.mp (hFin 0 j)
      rw [hTop (j + 1), hTop j, hv]
      have htail := ih 0 j (by omega)
      cases hrest : backtrackAux C f (0 + 1) (j + 1) with
      | nil => rw [hrest] at htail; simp at htail
      | cons r rs =>
        rw [hrest] at htail
        simp [eLE, hrest, htail]
    | i + 1, 0 =>
      obtain ⟨v, hv⟩ := Option.ne_none_iff_exists'.mp (hFin i 0)
      rw [hv, hLeft (i + 1), hLeft i]
      have htail := ih i 0 (by omega)
      cases hrest : backtrackAux C f (i + 1) (0 + 1) with
      | nil => rw [hrest] at htail; simp at htail
      | cons r rs =>
        rw [hrest] at htail
        simp [eLE, hrest, htail]
    | i + 1, j + 1 =>
      have htail : ∀ a b, a + b + 1 ≤ f →
          ∀ l, l = backtrackAux C f (a + 1) (b + 1) →
          ((i + 1, j + 1) :: l).getLast? = some (0, 0) := by
        intro a b hab l hl
        have h := ih a b hab
        cases hrest : l with
        | nil => rw [hl.symm, hrest] at h; simp at h
        | cons r rs =>
          rw [hl] at hrest
          rw [hrest] at h
          rw [List.getLast?_cons_cons]
          exact h
      split
      · exact htail i (j + 1) (by omega) _ rfl
      · split
        · exact htail (i + 1) j (by omega) _ rfl
        · exact htail i j (by omega) _ rfl

theorem btAux_bounds (C : Nat → Nat → Option ℚ) :
    ∀ f i j p, p ∈ backtrackAux C f i j → p.1 < i ∧ p.2 < j := by
  intro f
  induction f with
  | zero => intro i j p hp; simp [backtrackAux] at hp
  | succ f ih =>
    intro i j p hp
    match i, j with
    | 0, j => rw [btAux_left_nil] at hp; simp at hp
    | i + 1, 0 => rw [btAux_right_nil] at hp; simp at hp
    | i + 1, j + 1 =>
      rw [btAux_cons] at hp
      rcases List.mem_cons.mp hp with hp | hp
      · subst hp; omega
      · split at hp
        · have := ih i (j + 1) p hp; omega
        · split at hp
          · have := ih (i + 1) j p hp; omega
          · have := ih i j p hp; omega

theorem btAux_chain (C : Nat → Nat → Option ℚ) :
    ∀ f i j, List.Chain' (flip ascStep) (backtrackAux C f i j) := by
  intro f
  induction f with
  | zero => intro i j; simp [backtrackAux]
  | succ f ih =>
    intro i j
    match i, j with
    | 0, j => rw [btAux_left_nil]; exact List.chain'_nil
    | i + 1, 0 => rw [btAux_right_nil]; exact List.chain'_nil
    | i + 1, j + 1 =>
      rw [btAux_cons]
      rw [List.chain'_cons']
      constructor
      · intro y hy
        split at hy
        · cases i with
          | zero => rw [btAux_left_nil] at hy; simp at hy
          | succ i =>
            rcases btAux_head C f i j with hnil | hh
            · rw [hnil] at hy; simp at hy
            · rw [hh] at hy
              simp at hy
              subst hy
              exact ⟨by omega, by omega, by omega, by omega⟩
        · split at hy
          · cases j with
            | zero => rw [btAux_right_nil] at hy; simp at hy
            | succ j =>
              rcases btAux_head C f i j with hnil | hh
              · rw [hnil] at hy; simp at hy
              · rw [hh] at hy
                simp at hy
                subst hy
                exact ⟨by omega, by omega, by omega, by omega⟩
          · cases i with
            | zero => rw [btAux_left_nil] at hy; simp at hy
            | succ i =>
              cases j with
              | zero => rw [btAux_right_nil] at hy; simp at hy
              | succ j =>
                rcases btAux_head C f i j with hnil | hh
                · rw [hnil] at hy; simp at hy
                · rw [hh] at hy
                  simp at hy
                  subst hy
                  exact ⟨by omega, by omega, by omega, by omega⟩
      · split
        · exact ih i (j + 1)
        · split
          · exact ih (i + 1) j
          · exact ih i j

theorem eLE_le (x : Option ℚ) (y : ℚ) (h : eLE x (some y) = true) :
    ∃ u, x = some u ∧ u ≤ y := by
  cases x with
  | none => simp [eLE] at h
  | some u => exact ⟨u, rfl, by simpa [eLE] using h⟩

theorem btAux_zero_pairs (d : Nat → Nat → ℚ) (hd : ∀ i j, 0 ≤ d i j) :
    ∀ f i j, dtwCost d (i + 1) (j + 1) = some 0 →
      ∀ p ∈ backtrackAux (dtwCost d) f (i + 1) (j + 1), d p.1 p.2 = 0 := by
  intro f
  induction f with
  | zero => intro i j _ p hp; simp [backtrackAux] at hp
  | succ f ih =>
    intro i j hzero p hp
    have hexp := hzero
    rw [dtwCost_succ_succ] at hexp
    unfold eAdd at hexp
    rcases Option.map_eq_some'.mp hexp with ⟨t, ht, hsum⟩
    have ht0 : 0 ≤ t := by
      rcases eMin_mem _ _ _ ht with h1 | h2
      · exact dtwCost_nonneg d hd _ _ _ h1
      · rcases eMin_mem _ _ _ h2 with h3 | h4
        · exact dtwCost_nonneg d hd _ _ _ h3
        · exact dtwCost_nonneg d hd _ _ _ h4
    have hdij : d i j = 0 := by
      have := hd i j
      linarith
    have htz : t = 0 := by linarith [hdij ▸ hsum]
    subst htz
    rw [btAux_cons] at hp
    rcases List.mem_cons.mp hp with hp | hp
    · subst hp; exact hdij
    · have hup := dtwCost d i (j + 1)
      split at hp
      · rename_i hc1
        rcases Bool.and_eq_true_iff.mp hc1 with ⟨hc1a, hc1b⟩
        -- the up cell is minimal here, hence equals `some 0`
        have hupz : dtwCost d i (j + 1) = some 0 := by
          rcases eMin_mem _ _ _ ht with h1 | h2
          · exact h1
          · rcases eMin_mem _ _ _ h2 with h3 | h4
            · rcases eLE_le _ _ (h3 ▸ hc1a) with ⟨u, hu, hu0⟩
              have := dtwCost_nonneg d hd _ _ _ hu
              have : u = 0 := by linarith
              rw [hu, this]
            · rcases eLE_le _ _ (h4 ▸ hc1b) with ⟨u, hu, hu0⟩
              have := dtwCost_nonneg d hd _ _ _ hu
              have : u = 0 := by linarith
              rw [hu, this]
        match i, hp, hupz with
        | 0, hp, hupz => rw [btAux_left_nil] at hp; simp at hp
        | i + 1, hp, hupz => exact ih i j hupz p hp
      · rename_i hc1
        split at hp
        · rename_i hc2
          -- the left cell is minimal here, hence equals `some 0`
          have hltz : dtwCost d (i + 1) j = some 0 := by
            have hle_up : eLE (dtwCost d (i + 1) j) (dtwCost d i (j + 1)) = true := by
              rcases eLE_total (dtwCost d i (j + 1)) (dtwCost d (i + 1) j) with h | h
              · exfalso
                apply hc1
                rw [h, Bool.true_and]
                exact eLE_trans h hc2
              · exact h
            rcases eMin_mem _ _ _ ht with h1 | h2
            · rcases eLE_le _ _ (h1 ▸ hle_up) with ⟨u, hu, hu0⟩
              have := dtwCost_nonneg d hd _ _ _ hu
              have : u = 0 := by linarith
              rw [hu, this]
            · rcases eMin_mem _ _ _ h2 with h3 | h4
              · exact h3
              · rcases eLE_le _ _ (h4 ▸ hc2) with ⟨u, hu, hu0⟩
                have := dtwCost_nonneg d hd _ _ _ hu
                have : u = 0 := by linarith
                rw [hu, this]
          match j, hp, hltz with
          | 0, hp, hltz => rw [btAux_right_nil] at hp; simp at hp
          | j + 1, hp, hltz => exact ih i j hltz p hp
        · rename_i hc2
          -- the diagonal cell is minimal here, hence equals `some 0`
          have hdg_le_left : eLE (dtwCost d i j) (dtwCost d (i + 1) j) = true := by
            rcases eLE_total (dtwCost d (i + 1) j) (dtwCost d i j) with h | h
            · exact absurd h (by simpa using hc2)
            · exact h
          have hdgz : dtwCost d i j = some 0 := by
            rcases eMin_mem _ _ _ ht with h1 | h2
            · have hdg_le_up : eLE (dtwCost d i j) (dtwCost d i (j + 1)) = true := by
                rcases eLE_total (dtwCost d i (j + 1)) (dtwCost d i j) with h | h
                · exfalso
                  apply hc1
                  have hul : eLE (dtwCost d i (j + 1)) (dtwCost d (i + 1) j) = true :=
                    eLE_trans h hdg_le_left
                  rw [hul, h]
                  rfl
                · exact h
              rcases eLE_le _ _ (h1 ▸ hdg_le_up) with ⟨u, hu, hu0⟩
              have := dtwCost_nonneg d hd _ _ _ hu
              have : u = 0 := by linarith
              rw [hu, this]
            · rcases eMin_mem _ _ _ h2 with h3 | h4
              · rcases eLE_le _ _ (h3 ▸ hdg_le_left) with ⟨u, hu, hu0⟩
                have := dtwCost_nonneg d hd _ _ _ hu
                have : u = 0 := by linarith
                rw [hu, this]
              · exact h4
          match i, j, hp, hdgz with
          | 0, j, hp, hdgz => rw [btAux_left_nil] at hp; simp at hp
          | i + 1, 0, hp, hdgz => rw [btAux_right_nil] at hp; simp at hp
          | i + 1, j + 1, hp, hdgz => exact ih i j hdgz p hp

theorem dtw_align_path_eq (sqrtF : ℚ → ℚ) (ex asg : List (List ℚ))
    (h : ¬(ex.length = 0 ∧ asg.length = 0)) :
    (dtw_align sqrtF ex asg).path =
      (backtrack (dtwCost (dtwD sqrtF ex asg)) ex.length asg.length).reverse := by
  unfold dtw_align
  rw [if_neg h]
  cases hc : dtwCost (dtwD sqrtF ex asg) ex.length asg.length <;> simp [hc]

/-- C2: for every pair of non-empty feature-vector sequences, the alignment
path returned by the DTW aligner (non-fallback branch) starts at `(0, 0)`,
ends at `(n-1, m-1)`, and is non-decreasing in both coordinates at every
step, each step increasing each coordinate by at most 1. -/
theorem dtw_align_path_endpoints_monotone (sqrtF : ℚ → ℚ)
    (example_features assignment_features : List (List ℚ))
    (hex : example_features ≠ []) (hasg : assignment_features ≠ []) :
    (dtw_align sqrtF example_features assignment_features).path.head? = some (0, 0) ∧
    (dtw_align sqrtF example_features assignment_features).path.getLast? =
      some (example_features.length - 1, assignment_features.length - 1) ∧
    List.Chain' ascStep (dtw_align sqrtF example_features assignment_features).path := by
  obtain ⟨n, hn⟩ : ∃ n, example_features.length = n + 1 :=
    ⟨example_features.length - 1, by have := List.length_pos.mpr hex; omega⟩
  obtain ⟨m, hm⟩ : ∃ m, assignment_features.length = m + 1 :=
    ⟨assignment_features.length - 1, by have := List.length_pos.mpr hasg; omega⟩
  rw [dtw_align_path_eq sqrtF _ _ (by omega)]
  refine ⟨?_, ?_, ?_⟩
  · rw [List.head?_reverse, hn, hm]
    unfold backtrack
    exact btAux_last _ (dtwCost_zero_succ _) (dtwCost_succ_zero _)
      (dtwCost_zero_zero _) (dtwCost_fin _) (n + 1 + (m + 1)) n m (by omega)
  · rw [List.getLast?_reverse, hn, hm]
    unfold backtrack
    have hf : n + 1 + (m + 1) = (n + m + 1) + 1 := by omega
    rw [hf, btAux_cons]
    simp
  · rw [List.chain'_reverse]
    unfold backtrack
    exact btAux_chain _ _ _ _

/-- Witness for C2 at concrete nonempty sequences. -/
theorem dtw_align_path_endpoints_monotone_witness :
    (([[1], [2]] : List (List ℚ)) ≠ []) ∧ (([[1]] : List (List ℚ)) ≠ []) ∧
    ((dtw_align ratSqrt [[1], [2]] [[1]]).path.head? = some (0, 0) ∧
     (dtw_align ratSqrt [[1], [2]] [[1]]).path.getLast? =
       some (([[1], [2]] : List (List ℚ)).length - 1,
         ([[1]] : List (List ℚ)).length - 1) ∧
     List.Chain' ascStep (dtw_align ratSqrt [[1], [2]] [[1]]).path) :=
  ⟨by decide, by decide,
    dtw_align_path_endpoints_monotone ratSqrt [[1], [2]] [[1]] (by decide) (by decide)⟩

/-- C10: the Similarity Scorer produces exactly one frame score per pair of
the alignment path, so the Feedback Synthesizer's scan of the scores always
finds a corresponding path pair at every index. -/
theorem frame_scores_length_eq_path_length (sqrtF : ℚ → ℚ)
    (example_features assignment_features : List (List ℚ)) (al : Alignment)
    (ts1 ts2 : List ℚ) :
    (calculate_similarities sqrtF example_features assignment_features
        al ts1 ts2).frame_scores.length = al.path.length := by
  simp [calculate_similarities]

/-- C6: whenever at least one sequence has no present frame after
filtering, `compare_videos` returns the graceful error result carrying a
non-empty error string and overall similarity 0, with no exception. -/
theorem compare_videos_empty_error (sqrtF : ℚ → ℚ)
    (example_pose_data assignment_pose_data : PoseData)
    (focus_areas : List String)
    (h : example_pose_data.poses.filterMap id = [] ∨
      assignment_pose_data.poses.filterMap id = []) :
    compare_videos sqrtF example_pose_data assignment_pose_data focus_areas =
      .err poseErrorMsg 0 ∧ poseErrorMsg ≠ "" := by
  constructor
  · unfold compare_videos
    rw [if_pos h]
  · decide

/-- Witness for C6: the example sequence consists of one absent frame. -/
theorem compare_videos_empty_error_witness :
    (({ poses := [none], timestamps := [0] } : PoseData).poses.filterMap id = [] ∨
      ({ poses := [some [("nose", { x := 1, y := 1 })]], timestamps := [0] } :
        PoseData).poses.filterMap id = []) ∧
    (compare_videos ratSqrt { poses := [none], timestamps := [0] }
        { poses := [some [("nose", { x := 1, y := 1 })]], timestamps := [0] } [] =
      .err poseErrorMsg 0 ∧ poseErrorMsg ≠ "") :=
  ⟨by decide, compare_videos_empty_error ratSqrt _ _ [] (by decide)⟩

/-- C4 counterexample: at `n = 2`, `m = 3` the fallback pairs index 1 with
`int(1 * 3 / 2) = 1`, not with `round(1 * 3 / 2) = 2` as the claim states
(`mkRat (i * 3) 2` is the exact rational `i * 3 / 2`). -/
theorem dtw_fallback_not_round :
    (dtw_fallback 2 3).path ≠
      (List.range 2).map (fun i => (i, (roundHalfEven (mkRat (i * 3) 2)).toNat)) := by
  decide

/-- C4 (amended): the fallback branch is total (never throws) and returns
the linear alignment pairing each index `i` of the example-side range
`[0, n)` with the floor `i * m / n`, with distance 0, normalized distance
0.5 and alignment quality 0.5. -/
theorem dtw_fallback_spec (n m i : Nat) (hi : i < n) :
    (dtw_fallback n m).distance = some 0 ∧
    (dtw_fallback n m).normalized_distance = 1 / 2 ∧
    (dtw_fallback n m).alignment_quality = 1 / 2 ∧
    (dtw_fallback n m).path.length = n ∧
    (dtw_fallback n m).path.getD i (0, 0) = (i, i * m / n) := by
  refine ⟨rfl, ?_, ?_, by simp [dtw_fallback], ?_⟩
  · show (mkRat 1 2 : ℚ) = 1 / 2
    norm_num [Rat.mkRat_eq_div]
  · show (mkRat 1 2 : ℚ) = 1 / 2
    norm_num [Rat.mkRat_eq_div]
  · simp [dtw_fallback, List.getD_eq_getElem?_getD, List.getElem?_map,
      List.getElem?_range, hi]

/-- Witness for C4 (amended) at `n = 2`, `m = 3`, `i = 1`. -/
theorem dtw_fallback_spec_witness :
    1 < 2 ∧
    ((dtw_fallback 2 3).distance = some 0 ∧
     (dtw_fallback 2 3).normalized_distance = 1 / 2 ∧
     (dtw_fallback 2 3).alignment_quality = 1 / 2 ∧
     (dtw_fallback 2 3).path.length = 2 ∧
     (dtw_fallback 2 3).path.getD 1 (0, 0) = (1, 1 * 3 / 2)) :=
  ⟨by decide, dtw_fallback_spec 2 3 1 (by decide)⟩

/-- C5 counterexample: on an empty alignment path (quality 0.7 here) the
scorer's `pose_similarity` is the `nan` mean of an empty list (not 0) and
its `timing_similarity` is the alignment quality (not 0), refuting the
claim that all three similarity values are 0. -/
theorem calculate_similarities_empty_not_zero :
    ¬((calculate_similarities ratSqrt [] []
        { distance := some 0, normalized_distance := 0, path := [],
          alignment_quality := 7 / 10 } [] []).pose_similarity = some 0 ∧
      (calculate_similarities ratSqrt [] []
        { distance := some 0, normalized_distance := 0, path := [],
          alignment_quality := 7 / 10 } [] []).timing_similarity = 0 ∧
      (calculate_similarities ratSqrt [] []
        { distance := some 0, normalized_distance := 0, path := [],
          alignment_quality := 7 / 10 } [] []).angle_similarity = 0) := by
  decide

/-- C5 (amended): for an empty alignment path the scorer returns without
raising: `angle_similarity` is 0 and the frame-score list is empty, while
`pose_similarity` is the `nan` mean of an empty list and
`timing_similarity` passes the alignment's quality through unchanged. -/
theorem calculate_similarities_empty (sqrtF : ℚ → ℚ)
    (example_features assignment_features : List (List ℚ)) (al : Alignment)
    (ts1 ts2 : List ℚ) (h : al.path = []) :
    calculate_similarities sqrtF example_features assignment_features al ts1 ts2 =
      { pose_similarity := none
        timing_similarity := al.alignment_quality
        angle_similarity := 0
        frame_scores := [] } := by
  simp [calculate_similarities, h, meanQ, calculate_angle_similarity]

/-- Witness for C5 (amended) at a concrete empty-path alignment. -/
theorem calculate_similarities_empty_witness :
    ({ distance := some 0, normalized_distance := 0, path := [],
        alignment_quality := 7 / 10 } : Alignment).path = [] ∧
    calculate_similarities ratSqrt [] []
        { distance := some 0, normalized_distance := 0, path := [],
          alignment_quality := 7 / 10 } [] [] =
      { pose_similarity := none
        timing_similarity := 7 / 10
        angle_similarity := 0
        frame_scores := [] } :=
  ⟨rfl, calculate_similarities_empty ratSqrt [] [] _ [] [] rfl⟩

theorem foldl_lines (g : FeedbackItem → String) :
    ∀ (l : List FeedbackItem) (s : String),
      l.foldl (fun acc p => if p.issue ≠ "None" then acc ++ g p else acc) s =
        s ++ ((l.filter (fun p => p.issue ≠ "None")).map g).foldr
          (fun x acc => x ++ acc) "" := by
  intro l
  induction l with
  | nil => intro s; simp
  | cons p l ih =>
    intro s
    rw [List.foldl_cons, List.filter_cons]
    by_cases hp : p.issue = "None"
    · have hcond : (decide (p.issue ≠ "None")) = false := by simp [hp]
      have hstep : (if p.issue ≠ "None" then s ++ g p else s) = s := by
        simp [hp]
      rw [hcond, hstep, ih]
      simp
    · have hcond : (decide (p.issue ≠ "None")) = true := by simp [hp]
      have hstep : (if p.issue ≠ "None" then s ++ g p else s) = s ++ g p := by
        simp [hp]
      rw [hcond, hstep, ih]
      simp [String.append_assoc]

/-- C8: the deterministic fallback feedback text is a function of only the
overall similarity and the feedback points (the Python function reads
exactly those two keys of the result dict), and equals the
specification-side text: an opening line, one of three band sentences
selected at thresholds 80 and 65, then one line per feedback item whose
issue is not `None`. -/
theorem generate_fallback_feedback_eq_spec (overall_similarity : ℚ)
    (feedback_points : List FeedbackItem) :
    generate_fallback_feedback overall_similarity feedback_points =
      fallback_feedback_spec overall_similarity feedback_points := by
  simp only [generate_fallback_feedback, fallback_feedback_spec]
  rw [foldl_lines]

theorem scan_enumFrom_good (path : List (Nat × Nat)) (ts : List ℚ) :
    ∀ (scores : List ℚ) (n : Nat), (∀ s ∈ scores, ¬(s < mkRat 3 5)) →
      (List.enumFrom n scores).foldl (scanStep path ts) ([], none) = ([], none) := by
  intro scores
  induction scores with
  | nil => intro n _; rfl
  | cons s l ih =>
    intro n h
    have hs : ¬(s < mkRat 3 5) := h s (List.mem_cons_self s l)
    have hstep : scanStep path ts ([], none) (n, s) = ([], none) := by
      simp [scanStep, hs]
    show List.foldl (scanStep path ts) ([], none)
      ((n, s) :: List.enumFrom (n + 1) l) = ([], none)
    rw [List.foldl_cons, hstep]
    exact ih (n + 1) (fun y hy => h y (List.mem_cons_of_mem _ hy))

/-- C7: when no frame score is below 0.6 (`mkRat 3 5`) and none of the
too-fast, too-slow or too-stiff flags fire, the feedback list is exactly
one item, the positive one with issue `None` and severity `none`. -/
theorem generate_feedback_points_positive (similarities : Similarities)
    (ma : Movement) (example_timestamps assignment_timestamps : List ℚ)
    (al : Alignment)
    (hscores : ∀ s ∈ similarities.frame_scores, ¬(s < mkRat 3 5))
    (hfast : ma.is_too_fast = false) (hslow : ma.is_too_slow = false)
    (hstiff : ma.is_too_stiff = false) :
    generate_feedback_points similarities ma example_timestamps
      assignment_timestamps al = [positiveItem] := by
  have hscan : (similarities.frame_scores.enum).foldl
      (scanStep al.path example_timestamps) ([], none) = ([], none) :=
    scan_enumFrom_good al.path example_timestamps similarities.frame_scores 0 hscores
  simp [generate_feedback_points, hscan, hfast, hslow, hstiff]

/-- Witness for C7 at a concrete high-score input with all flags off. -/
theorem generate_feedback_points_positive_witness :
    (∀ s ∈ witSims.frame_scores, ¬(s < mkRat 3 5)) ∧
    witMove.is_too_fast = false ∧
    generate_feedback_points witSims witMove [0] [0] witAlign = [positiveItem] :=
  ⟨by decide, rfl,
    generate_feedback_points_positive witSims witMove [0] [0] witAlign
      (by decide) rfl rfl rfl⟩

theorem frameVelocity_nonneg (sqrtF : ℚ → ℚ) (hnn : ∀ x, 0 ≤ sqrtF x)
    (p q : Option Pose) : 0 ≤ frameVelocity sqrtF p q := by
  cases p with
  | none => simp [frameVelocity]
  | some a =>
    cases q with
    | none => simp [frameVelocity]
    | some b =>
      simp only [frameVelocity]
      split
      · exact le_refl 0
      · apply div_nonneg
        · apply List.sum_nonneg
          intro x hx
          rcases List.mem_filterMap.mp hx with ⟨k, _, hk⟩
          rcases hla : List.lookup k a with _ | la
          · rw [hla] at hk; simp at hk
          · rcases hlb : List.lookup k b with _ | lb
            · rw [hla, hlb] at hk; simp at hk
            · rw [hla, hlb] at hk
              simp at hk
              rw [← hk]
              exact hnn _
        · exact_mod_cast Nat.zero_le _

theorem calculate_velocities_nonneg (sqrtF : ℚ → ℚ) (hnn : ∀ x, 0 ≤ sqrtF x)
    (poses : List (Option Pose)) :
    ∀ v ∈ calculate_velocities sqrtF poses, 0 ≤ v := by
  intro v hv
  unfold calculate_velocities at hv
  rcases List.mem_map.mp hv with ⟨pq, _, rfl⟩
  exact frameVelocity_nonneg sqrtF hnn pq.1 pq.2

theorem meanQ_nonneg (l : List ℚ) (h : ∀ x ∈ l, 0 ≤ x) (a : ℚ)
    (ha : meanQ l = some a) : 0 ≤ a := by
  unfold meanQ at ha
  split at ha
  · simp at ha
  · injection ha with ha
    rw [← ha]
    exact div_nonneg (List.sum_nonneg h) (by exact_mod_cast Nat.zero_le _)

theorem segmentItem_issue (seg : Segment) :
    (segmentItem seg).issue = "Pose mismatch" := rfl

theorem tooFastItem_issue (ma : Movement) :
    (tooFastItem ma).issue = "Movement speed too fast" := rfl

theorem tooSlowItem_issue (ma : Movement) :
    (tooSlowItem ma).issue = "Movement speed too slow" := rfl

theorem feedback_issue_flags (sims : Similarities) (ma : Movement)
    (ts1 ts2 : List ℚ) (al : Alignment) :
    ∀ r ∈ generate_feedback_points sims ma ts1 ts2 al,
      (r.issue = "Movement speed too fast" → ma.is_too_fast = true) ∧
      (r.issue = "Movement speed too slow" →
        ma.is_too_fast = false ∧ ma.is_too_slow = true) := by
  intro r hr
  unfold generate_feedback_points at hr
  dsimp only at hr
  split at hr
  · rename_i hfast
    simp at hr
    constructor
    · intro _
      exact hfast
    · intro hissue
      rcases hr with ⟨a, -, ha⟩ | ⟨a, -, ha⟩ | ha | ⟨-, ha⟩
      · rw [← ha, segmentItem_issue] at hissue; exact absurd hissue (by decide)
      · rw [← ha, segmentItem_issue] at hissue; exact absurd hissue (by decide)
      · rw [ha, tooFastItem_issue] at hissue; exact absurd hissue (by decide)
      · rw [ha] at hissue; exact absurd hissue (by decide)
  · rename_i hnotfast
    split at hr
    · rename_i hslow
      simp at hr
      constructor
      · intro hissue
        rcases hr with ⟨a, -, ha⟩ | ⟨a, -, ha⟩ | ha | ⟨-, ha⟩
        · rw [← ha, segmentItem_issue] at hissue; exact absurd hissue (by decide)
        · rw [← ha, segmentItem_issue] at hissue; exact absurd hissue (by decide)
        · rw [ha, tooSlowItem_issue] at hissue; exact absurd hissue (by decide)
        · rw [ha] at hissue; exact absurd hissue (by decide)
      · intro _
        exact ⟨by simpa using hnotfast, hslow⟩
    · split at hr
      · simp at hr
        refine ⟨fun hissue => ?_, fun hissue => ?_⟩ <;>
          rcases hr with ⟨a, -, ha⟩ | ⟨a, -, ha⟩ | ha
        · rw [← ha, segmentItem_issue] at hissue; exact absurd hissue (by decide)
        · rw [← ha, segmentItem_issue] at hissue; exact absurd hissue (by decide)
        · rw [ha] at hissue; exact absurd hissue (by decide)
        · rw [← ha, segmentItem_issue] at hissue; exact absurd hissue (by decide)
        · rw [← ha, segmentItem_issue] at hissue; exact absurd hissue (by decide)
        · rw [ha] at hissue; exact absurd hissue (by decide)
      · split at hr
        · simp at hr
          subst hr
          exact ⟨fun h => absurd h (by decide), fun h => absurd h (by decide)⟩
        · simp at hr
          refine ⟨fun hissue => ?_, fun hissue => ?_⟩ <;>
            rcases hr with ⟨a, -, ha⟩ | ⟨a, -, ha⟩ <;>
            rw [← ha, segmentItem_issue] at hissue <;>
            exact absurd hissue (by decide)

/-- C9: the tempo flags of the movement analyzer are never both true
(velocities are nonnegative, so the candidate mean cannot exceed 1.3 times
and fall below 0.7 times the reference mean at once, and `nan` means
compare as false), and the feedback list never contains both a too-fast and
a too-slow item. -/
theorem tempo_flags_exclusive (sqrtF : ℚ → ℚ) (hnn : ∀ x, 0 ≤ sqrtF x)
    (example_poses assignment_poses : List (Option Pose)) (al : Alignment)
    (similarities : Similarities) (ts1 ts2 : List ℚ) :
    ¬((analyze_movement_quality sqrtF example_poses assignment_poses
        al).is_too_fast = true ∧
      (analyze_movement_quality sqrtF example_poses assignment_poses
        al).is_too_slow = true) ∧
    ¬((∃ p ∈ generate_feedback_points similarities
          (analyze_movement_quality sqrtF example_poses assignment_poses al)
          ts1 ts2 al, p.issue = "Movement speed too fast") ∧
      (∃ p ∈ generate_feedback_points similarities
          (analyze_movement_quality sqrtF example_poses assignment_poses al)
          ts1 ts2 al, p.issue = "Movement speed too slow")) := by
  have hmain : ¬((analyze_movement_quality sqrtF example_poses assignment_poses
      al).is_too_fast = true ∧
      (analyze_movement_quality sqrtF example_poses assignment_poses
        al).is_too_slow = true) := by
    rintro ⟨hf, hs⟩
    simp only [analyze_movement_quality] at hf hs
    rcases hma : meanQ (calculate_velocities sqrtF assignment_poses) with _ | a
    · rw [hma] at hf; simp [nanGT] at hf
    · rcases hme : meanQ (calculate_velocities sqrtF example_poses) with _ | e
      · rw [hme] at hf; simp [nanGT] at hf
      · rw [hma, hme] at hf hs
        simp [nanGT, nanLT] at hf hs
        have he : 0 ≤ e :=
          meanQ_nonneg _ (calculate_velocities_nonneg sqrtF hnn example_poses) e hme
        have h13 : (mkRat 13 10 : ℚ) = 13 / 10 := by norm_num [Rat.mkRat_eq_div]
        have h7 : (mkRat 7 10 : ℚ) = 7 / 10 := by norm_num [Rat.mkRat_eq_div]
        rw [h13] at hf
        rw [h7] at hs
        nlinarith
  refine ⟨hmain, ?_⟩
  rintro ⟨⟨p, hp, hpi⟩, ⟨q, hq, hqi⟩⟩
  have h1 := (feedback_issue_flags similarities _ ts1 ts2 al p hp).1 hpi
  have h2 := ((feedback_issue_flags similarities _ ts1 ts2 al q hq).2 hqi).1
  rw [h1] at h2
  exact absurd h2 (by decide)

/-- Witness for C9 with the concrete square-root model and empty pose
lists. -/
theorem tempo_flags_exclusive_witness :
    (∀ x : ℚ, 0 ≤ ratSqrt x) ∧
    (¬((analyze_movement_quality ratSqrt [] [] witAlign).is_too_fast = true ∧
       (analyze_movement_quality ratSqrt [] [] witAlign).is_too_slow = true) ∧
     ¬((∃ p ∈ generate_feedback_points witSims
           (analyze_movement_quality ratSqrt [] [] witAlign) [] [] witAlign,
         p.issue = "Movement speed too fast") ∧
       (∃ p ∈ generate_feedback_points witSims
           (analyze_movement_quality ratSqrt [] [] witAlign) [] [] witAlign,
         p.issue = "Movement speed too slow"))) :=
  ⟨ratSqrt_nonneg,
    tempo_flags_exclusive ratSqrt ratSqrt_nonneg [] [] witAlign witSims [] []⟩

/-! Arithmetic and list helpers for the orchestrator-level claims. -/

theorem zip_self_eq_map (u : List ℚ) : u.zip u = u.map (fun x => (x, x)) := by
  induction u with
  | nil => rfl
  | cons a l ih => simp [ih]

theorem sumSqDiff_self (u : List ℚ) : sumSqDiff u u = 0 := by
  unfold sumSqDiff
  rw [zip_self_eq_map, List.map_map]
  apply List.sum_eq_zero
  intro x hx
  rcases List.mem_map.mp hx with ⟨z, _, rfl⟩
  simp [Function.comp]

theorem sumSqDiff_nonneg (u v : List ℚ) : 0 ≤ sumSqDiff u v := by
  apply List.sum_nonneg
  intro x hx
  rcases List.mem_map.mp hx with ⟨p, _, rfl⟩
  positivity

theorem sumSqDiff_eq_zero (u : List ℚ) :
    ∀ v, u.length = v.length → sumSqDiff u v = 0 → u = v := by
  induction u with
  | nil =>
    intro v hl _
    cases v with
    | nil => rfl
    | cons b w => simp at hl
  | cons a l ih =>
    intro v hl h0
    cases v with
    | nil => simp at hl
    | cons b w =>
      have hexp : sumSqDiff (a :: l) (b :: w) = (a - b) ^ 2 + sumSqDiff l w := by
        simp [sumSqDiff]
      rw [hexp] at h0
      have h1 : (0 : ℚ) ≤ (a - b) ^ 2 := by positivity
      have h2 : 0 ≤ sumSqDiff l w := sumSqDiff_nonneg l w
      have hab : (a - b) ^ 2 = 0 := by linarith
      have hab' : a = b := by
        have := pow_eq_zero_iff (n := 2) (by norm_num) |>.mp hab
        linarith
      have hlw : sumSqDiff l w = 0 := by linarith
      rw [hab', ih w (by simpa using hl) hlw]

theorem dotQ_self_pos (u : List ℚ) (h : ∃ x ∈ u, x ≠ 0) : 0 < dotQ u u := by
  unfold dotQ
  rw [zip_self_eq_map, List.map_map]
  rcases h with ⟨x, hx, hxne⟩
  induction u with
  | nil => simp at hx
  | cons a l ih =>
    rw [List.map_cons, List.sum_cons]
    have hrest : 0 ≤ (l.map ((fun p => p.1 * p.2) ∘ fun x => (x, x))).sum := by
      apply List.sum_nonneg
      intro y hy
      rcases List.mem_map.mp hy with ⟨z, _, rfl⟩
      simp only [Function.comp]
      exact mul_self_nonneg z
    rcases List.mem_cons.mp hx with hxa | hxl
    · subst hxa
      have hxx : (0 : ℚ) < x * x := mul_self_pos.mpr hxne
      simp only [Function.comp]
      nlinarith
    · have := ih hxl
      have ha : (0 : ℚ) ≤ a * a := mul_self_nonneg a
      simp only [Function.comp] at this ⊢
      nlinarith

theorem poses_to_features_length (poses : List (Option Pose)) :
    ∀ f ∈ poses_to_features poses, f.length = 66 := by
  intro f hf
  rcases List.mem_map.mp hf with ⟨p, _, rfl⟩
  cases p with
  | none => simp
  | some pose =>
    simp only [padTo66]
    rw [List.length_take, List.length_append, List.length_replicate]
    omega

theorem meanQ_all_ones (l : List ℚ) (hne : l ≠ []) (h : ∀ s ∈ l, s = 1) :
    meanQ l = some 1 := by
  unfold meanQ
  rw [if_neg hne]
  have hsum : l.sum = l.length := by
    induction l with
    | nil => simp
    | cons a t ih =>
      rw [List.sum_cons, h a (List.mem_cons_self a t)]
      rcases t with _ | ⟨b, t'⟩
      · simp
      · rw [ih (by simp) (fun s hs => h s (List.mem_cons_of_mem _ hs))]
        simp
        ring
  rw [hsum]
  have hlen : (l.length : ℚ) ≠ 0 := by
    have : 0 < l.length := List.length_pos.mpr hne
    exact_mod_cast Nat.pos_iff_ne_zero.mp this
  rw [div_self hlen]

theorem roundHalfEven_intCast (z : ℤ) : roundHalfEven (z : ℚ) = z := by
  unfold roundHalfEven
  have hnum : (z : ℚ).num = z := Rat.num_intCast z
  have hden : (z : ℚ).den = 1 := Rat.den_intCast z
  have hfloor : Rat.floor (z : ℚ) = z := by
    rw [Rat.floor_def', hnum, hden]
    simp
  rw [hfloor, hnum, hden]
  norm_num

theorem roundTo1_100 : roundTo1 ((1 : ℚ) * 100) = 100 := by
  unfold roundTo1
  have h1 : ((1 : ℚ) * 100) * 10 = ((1000 : ℤ) : ℚ) := by norm_num
  have h2 : (10 : ℚ) * ((1 : ℚ) * 100) = ((1000 : ℤ) : ℚ) := by norm_num
  rw [h2, roundHalfEven_intCast]
  norm_num

theorem meanQ_of_ne_nil (l : List ℚ) (hne : l ≠ []) :
    meanQ l = some (l.sum / l.length) := by
  unfold meanQ
  rw [if_neg hne]

theorem dtw_align_path_ne_nil (sqrtF : ℚ → ℚ) (exF asF : List (List ℚ))
    (hex : exF ≠ []) (has : asF ≠ []) :
    (dtw_align sqrtF exF asF).path ≠ [] := by
  obtain ⟨n, hn⟩ : ∃ n, exF.length = n + 1 :=
    ⟨exF.length - 1, by have := List.length_pos.mpr hex; omega⟩
  obtain ⟨m, hm⟩ : ∃ m, asF.length = m + 1 :=
    ⟨asF.length - 1, by have := List.length_pos.mpr has; omega⟩
  rw [dtw_align_path_eq sqrtF _ _ (by omega), hn, hm]
  unfold backtrack
  have hf : n + 1 + (m + 1) = (n + m + 1) + 1 := by omega
  rw [hf, btAux_cons]
  simp

theorem mkRat_weights :
    (mkRat 2 5 : ℚ) = 0.40 ∧ (mkRat 1 4 : ℚ) = 0.25 ∧
    (mkRat 1 5 : ℚ) = 0.20 ∧ (mkRat 3 20 : ℚ) = 0.15 := by
  norm_num [Rat.mkRat_eq_div]

/-- C3: for non-empty cleaned sequences, the reported overall similarity is
exactly the fixed linear combination
`0.40 * pose + 0.25 * timing + 0.20 * angle + 0.15 * smoothness` of the
computed sub-metrics, scaled by 100 and rounded to one decimal. -/
theorem compare_videos_overall_formula (sqrtF : ℚ → ℚ)
    (example_pose_data assignment_pose_data : PoseData)
    (focus_areas : List String)
    (hex : example_pose_data.poses.filterMap id ≠ [])
    (has : assignment_pose_data.poses.filterMap id ≠ []) :
    let exF := poses_to_features ((example_pose_data.poses.filterMap id).map some)
    let asF := poses_to_features ((assignment_pose_data.poses.filterMap id).map some)
    let al := dtw_align sqrtF exF asF
    let sims := calculate_similarities sqrtF exF asF al
      example_pose_data.timestamps assignment_pose_data.timestamps
    let ma := analyze_movement_quality sqrtF
      ((example_pose_data.poses.filterMap id).map some)
      ((assignment_pose_data.poses.filterMap id).map some) al
    ∃ r ps,
      compare_videos sqrtF example_pose_data assignment_pose_data focus_areas =
        .ok r ∧
      sims.pose_similarity = some ps ∧
      r.overall_similarity = some (roundTo1 (((0.40 : ℚ) * ps +
        (0.25 : ℚ) * sims.timing_similarity +
        (0.20 : ℚ) * sims.angle_similarity +
        (0.15 : ℚ) * ma.smoothness_score) * 100)) := by
  intro exF asF al sims ma
  have hexF : exF ≠ [] := by
    simp only [exF, poses_to_features]
    intro hc
    rw [List.map_eq_nil, List.map_eq_nil] at hc
    exact hex hc
  have hasF : asF ≠ [] := by
    simp only [asF, poses_to_features]
    intro hc
    rw [List.map_eq_nil, List.map_eq_nil] at hc
    exact has hc
  have hpath : al.path ≠ [] := dtw_align_path_ne_nil sqrtF exF asF hexF hasF
  have hfs : sims.frame_scores ≠ [] := by
    show al.path.map _ ≠ []
    simpa using hpath
  obtain ⟨ps, hps⟩ : ∃ ps, sims.pose_similarity = some ps :=
    ⟨_, meanQ_of_ne_nil _ hfs⟩
  have hok : ∃ r, compare_videos sqrtF example_pose_data assignment_pose_data
      focus_areas = .ok r ∧
      r.overall_similarity =
        (calculate_overall_score sims ma).map (fun s => roundTo1 (s * 100)) := by
    unfold compare_videos
    rw [if_neg (not_or.mpr ⟨hex, has⟩)]
    exact ⟨_, rfl, rfl⟩
  obtain ⟨r, hr, hrov⟩ := hok
  refine ⟨r, ps, hr, hps, ?_⟩
  rw [hrov]
  unfold calculate_overall_score
  rw [hps]
  simp only [Option.map_some']
  congr 1
  obtain ⟨h1, h2, h3, h4⟩ := mkRat_weights
  rw [h1, h2, h3, h4]
  ring_nf

theorem dtw_align_of_cost (sqrtF : ℚ → ℚ) (exF asF : List (List ℚ))
    (h : ¬(exF.length = 0 ∧ asF.length = 0)) (q : ℚ)
    (hq : dtwCost (dtwD sqrtF exF asF) exF.length asF.length = some q) :
    dtw_align sqrtF exF asF =
      { distance := some q
        normalized_distance :=
          min (q / ((max exF.length asF.length : Nat) * 10)) 1
        path := (backtrack (dtwCost (dtwD sqrtF exF asF))
          exF.length asF.length).reverse
        alignment_quality :=
          max 0 (1 - q / ((max exF.length asF.length : Nat) * 10)) } := by
  unfold dtw_align
  rw [if_neg h]
  dsimp only
  rw [hq]

theorem frame_score_self (sqrtF : ℚ → ℚ)
    (hsq : ∀ x, 0 ≤ x → sqrtF (x * x) = x) (f : List ℚ)
    (hd : 0 < dotQ f f) : frame_score sqrtF f f = 1 := by
  unfold frame_score cosineDist
  rw [if_neg (mul_pos hd hd).ne']
  rw [hsq _ (le_of_lt hd), div_self (ne_of_gt hd)]
  norm_num

/-- C1: comparing a pose sequence against an identical copy of itself, with
at least one present frame and every encoded feature vector non-zero,
yields pose similarity 1 (the mean of the reported frame scores), timing
similarity 1 (the alignment quality, from DTW distance 0), and overall
similarity 100.0. The square-root parameter is assumed to satisfy the
defining properties of the real square root at the arguments used. -/
theorem compare_videos_self_perfect (sqrtF : ℚ → ℚ)
    (hs0 : sqrtF 0 = 0) (hnn : ∀ x, 0 ≤ sqrtF x)
    (hpos : ∀ x, 0 < x → 0 < sqrtF x)
    (hsq : ∀ x, 0 ≤ x → sqrtF (x * x) = x)
    (example_pose_data : PoseData) (focus_areas : List String)
    (hne : example_pose_data.poses.filterMap id ≠ [])
    (hnz : ∀ f ∈ poses_to_features
        ((example_pose_data.poses.filterMap id).map some), ∃ x ∈ f, x ≠ 0) :
    ∃ r, compare_videos sqrtF example_pose_data example_pose_data focus_areas =
        .ok r ∧
      meanQ r.frame_similarities = some 1 ∧
      r.alignment.alignment_quality = 1 ∧
      r.overall_similarity = some 100 := by
  set F := poses_to_features ((example_pose_data.poses.filterMap id).map some)
    with hFdef
  have hFne : F ≠ [] := by
    rw [hFdef]
    simp only [poses_to_features]
    intro hc
    rw [List.map_eq_nil, List.map_eq_nil] at hc
    exact hne hc
  have hn1 : 1 ≤ F.length := List.length_pos.mpr hFne
  have hdd0 : ∀ i j, 0 ≤ dtwD sqrtF F F i j := fun i j => hnn _
  have hdiag : ∀ k, dtwD sqrtF F F k k = 0 := by
    intro k
    show sqrtF (sumSqDiff (F.getD k []) (F.getD k [])) = 0
    rw [sumSqDiff_self, hs0]
  have hcost : dtwCost (dtwD sqrtF F F) F.length F.length = some 0 :=
    dtwCost_diag_zero _ hdd0 hdiag F.length
  have hal : dtw_align sqrtF F F =
      { distance := some 0
        normalized_distance :=
          min ((0 : ℚ) / ((max F.length F.length : Nat) * 10)) 1
        path := (backtrack (dtwCost (dtwD sqrtF F F)) F.length F.length).reverse
        alignment_quality :=
          max 0 (1 - (0 : ℚ) / ((max F.length F.length : Nat) * 10)) } :=
    dtw_align_of_cost sqrtF F F (by omega) 0 hcost
  have hqual : (dtw_align sqrtF F F).alignment_quality = 1 := by
    rw [hal]
    show max 0 (1 - (0 : ℚ) / ((max F.length F.length : Nat) * 10)) = 1
    rw [zero_div]
    norm_num
  have hpairs : ∀ p ∈ (dtw_align sqrtF F F).path,
      dtwD sqrtF F F p.1 p.2 = 0 ∧ p.1 < F.length ∧ p.2 < F.length := by
    intro p hp
    rw [hal] at hp
    dsimp only at hp
    rw [List.mem_reverse] at hp
    obtain ⟨n', hn'⟩ : ∃ n', F.length = n' + 1 := ⟨F.length - 1, by omega⟩
    rw [hn'] at hp
    unfold backtrack at hp
    refine ⟨?_, ?_, ?_⟩
    · exact btAux_zero_pairs _ hdd0 _ n' n' (hn' ▸ hcost) p hp
    · have := btAux_bounds _ _ _ _ p hp
      omega
    · have := btAux_bounds _ _ _ _ p hp
      omega
  have hfeat : ∀ p ∈ (dtw_align sqrtF F F).path,
      F.getD p.1 [] = F.getD p.2 [] := by
    intro p hp
    obtain ⟨hd0, h1, h2⟩ := hpairs p hp
    have hssd : sumSqDiff (F.getD p.1 []) (F.getD p.2 []) = 0 := by
      by_contra hne0
      have hpos' : 0 < sumSqDiff (F.getD p.1 []) (F.getD p.2 []) :=
        lt_of_le_of_ne (sumSqDiff_nonneg _ _) (Ne.symm hne0)
      have hsp := hpos _ hpos'
      have hd0' : sqrtF (sumSqDiff (F.getD p.1 []) (F.getD p.2 [])) = 0 := hd0
      linarith
    have hmem1 : F.getD p.1 [] ∈ F := by
      rw [List.getD_eq_getElem F [] h1]
      exact List.getElem_mem h1
    have hmem2 : F.getD p.2 [] ∈ F := by
      rw [List.getD_eq_getElem F [] h2]
      exact List.getElem_mem h2
    have hl1 : (F.getD p.1 []).length = 66 := poses_to_features_length _ _ (hFdef ▸ hmem1)
    have hl2 : (F.getD p.2 []).length = 66 := poses_to_features_length _ _ (hFdef ▸ hmem2)
    exact sumSqDiff_eq_zero _ _ (by rw [hl1, hl2]) hssd
  have hpathne : (dtw_align sqrtF F F).path ≠ [] :=
    dtw_align_path_ne_nil sqrtF F F hFne hFne
  have hfs1 : ∀ s ∈ ((dtw_align sqrtF F F).path.map (fun p =>
      if p.1 < F.length ∧ p.2 < F.length then
        frame_score sqrtF (F.getD p.1 []) (F.getD p.2 [])
      else 0)), s = 1 := by
    intro s hs
    rcases List.mem_map.mp hs with ⟨p, hp, rfl⟩
    obtain ⟨hd0, h1, h2⟩ := hpairs p hp
    rw [if_pos ⟨h1, h2⟩, ← hfeat p hp]
    apply frame_score_self sqrtF hsq
    apply dotQ_self_pos
    apply hnz
    rw [List.getD_eq_getElem F [] h1]
    exact List.getElem_mem h1
  have hfsne : ((dtw_align sqrtF F F).path.map (fun p =>
      if p.1 < F.length ∧ p.2 < F.length then
        frame_score sqrtF (F.getD p.1 []) (F.getD p.2 [])
      else 0)) ≠ [] := by
    simpa using hpathne
  have hok : ∃ r, compare_videos sqrtF example_pose_data example_pose_data
      focus_areas = .ok r ∧
      r.frame_similarities = (dtw_align sqrtF F F).path.map (fun p =>
        if p.1 < F.length ∧ p.2 < F.length then
          frame_score sqrtF (F.getD p.1 []) (F.getD p.2 [])
        else 0) ∧
      r.alignment = dtw_align sqrtF F F ∧
      r.overall_similarity = (calculate_overall_score
        (calculate_similarities sqrtF F F (dtw_align sqrtF F F)
          example_pose_data.timestamps example_pose_data.timestamps)
        (analyze_movement_quality sqrtF
          ((example_pose_data.poses.filterMap id).map some)
          ((example_pose_data.poses.filterMap id).map some)
          (dtw_align sqrtF F F))).map (fun s => roundTo1 (s * 100)) := by
    unfold compare_videos
    rw [if_neg (not_or.mpr ⟨hne, hne⟩)]
    exact ⟨_, rfl, rfl, rfl, rfl⟩
  obtain ⟨r, hr, hrf, hra, hro⟩ := hok
  refine ⟨r, hr, ?_, ?_, ?_⟩
  · rw [hrf]
    exact meanQ_all_ones _ hfsne hfs1
  · rw [hra]
    exact hqual
  · rw [hro]
    have hsims_pose : (calculate_similarities sqrtF F F (dtw_align sqrtF F F)
        example_pose_data.timestamps example_pose_data.timestamps).pose_similarity
        = some 1 := meanQ_all_ones _ hfsne hfs1
    have htiming : (calculate_similarities sqrtF F F (dtw_align sqrtF F F)
        example_pose_data.timestamps example_pose_data.timestamps).timing_similarity
        = 1 := hqual
    have hangle : (calculate_similarities sqrtF F F (dtw_align sqrtF F F)
        example_pose_data.timestamps example_pose_data.timestamps).angle_similarity
        = 1 := by
      show calculate_angle_similarity sqrtF F F (dtw_align sqrtF F F).path = 1
      unfold calculate_angle_similarity
      have hall : ∀ x ∈ (dtw_align sqrtF F F).path.filterMap (fun p =>
          if p.1 < F.length ∧ p.2 < F.length then
            some (euclideanQ sqrtF (F.getD p.1 []) (F.getD p.2 []))
          else none), x = 0 := by
        intro x hx
        rcases List.mem_filterMap.mp hx with ⟨p, hp, hgp⟩
        obtain ⟨hd0, h1, h2⟩ := hpairs p hp
        rw [if_pos ⟨h1, h2⟩] at hgp
        injection hgp with hgp
        rw [← hgp]
        exact hd0
      obtain ⟨p0, hp0⟩ := List.exists_mem_of_ne_nil _ hpathne
      obtain ⟨hd0, h1, h2⟩ := hpairs p0 hp0
      have hmem0 : euclideanQ sqrtF (F.getD p0.1 []) (F.getD p0.2 []) ∈
          (dtw_align sqrtF F F).path.filterMap (fun p =>
            if p.1 < F.length ∧ p.2 < F.length then
              some (euclideanQ sqrtF (F.getD p.1 []) (F.getD p.2 []))
            else none) :=
        List.mem_filterMap.mpr ⟨p0, hp0, by rw [if_pos ⟨h1, h2⟩]⟩
      have hdsne : (dtw_align sqrtF F F).path.filterMap (fun p =>
          if p.1 < F.length ∧ p.2 < F.length then
            some (euclideanQ sqrtF (F.getD p.1 []) (F.getD p.2 []))
          else none) ≠ [] := List.ne_nil_of_mem hmem0
      rw [if_neg hdsne, List.sum_eq_zero hall, zero_div, zero_div]
      norm_num
    have hsmooth : (analyze_movement_quality sqrtF
        ((example_pose_data.poses.filterMap id).map some)
        ((example_pose_data.poses.filterMap id).map some)
        (dtw_align sqrtF F F)).smoothness_score = 1 := by
      show 1 - |calculate_smoothness sqrtF ((example_pose_data.poses.filterMap id).map some)
        - calculate_smoothness sqrtF ((example_pose_data.poses.filterMap id).map some)| = 1
      rw [sub_self, abs_zero, sub_zero]
    unfold calculate_overall_score
    rw [hsims_pose]
    simp only [Option.map_some']
    rw [htiming, hangle, hsmooth]
    have hone : (1 : ℚ) * mkRat 2 5 + 1 * mkRat 1 4 + 1 * mkRat 1 5 +
        1 * mkRat 3 20 = 1 := by
      norm_num [Rat.mkRat_eq_div]
    rw [hone, roundTo1_100]

/-- Witness for C3 at concrete one-frame inputs. -/
theorem compare_videos_overall_formula_witness :
    (witData1.poses.filterMap id ≠ []) ∧ (witData2.poses.filterMap id ≠ []) ∧
    (let exF := poses_to_features ((witData1.poses.filterMap id).map some)
     let asF := poses_to_features ((witData2.poses.filterMap id).map some)
     let al := dtw_align ratSqrt exF asF
     let sims := calculate_similarities ratSqrt exF asF al
       witData1.timestamps witData2.timestamps
     let ma := analyze_movement_quality ratSqrt
       ((witData1.poses.filterMap id).map some)
       ((witData2.poses.filterMap id).map some) al
     ∃ r ps,
       compare_videos ratSqrt witData1 witData2 [] = .ok r ∧
       sims.pose_similarity = some ps ∧
       r.overall_similarity = some (roundTo1 (((0.40 : ℚ) * ps +
         (0.25 : ℚ) * sims.timing_similarity +
         (0.20 : ℚ) * sims.angle_similarity +
         (0.15 : ℚ) * ma.smoothness_score) * 100))) :=
  ⟨by decide, by decide,
    compare_videos_overall_formula ratSqrt witData1 witData2 []
      (by decide) (by decide)⟩

/-- Witness for C1 at a concrete one-frame input with a non-zero feature
vector, with the concrete square-root model. -/
theorem compare_videos_self_perfect_witness :
    (witData1.poses.filterMap id ≠ []) ∧
    (∀ f ∈ poses_to_features ((witData1.poses.filterMap id).map some),
      ∃ x ∈ f, x ≠ 0) ∧
    (∃ r, compare_videos ratSqrt witData1 witData1 [] = .ok r ∧
      meanQ r.frame_similarities = some 1 ∧
      r.alignment.alignment_quality = 1 ∧
      r.overall_similarity = some 100) :=
  ⟨by decide, by decide,
    compare_videos_self_perfect ratSqrt ratSqrt_zero ratSqrt_nonneg ratSqrt_pos
      ratSqrt_mul_self witData1 [] (by decide) (by decide)⟩

end Cbc
